import Mathlib

/-
Shallow embedding of the encryption / compression builtin evaluators of
expression/builtin_encryption.go (package expression).

Go strings and byte slices are modelled as lists of naturals (each entry a
byte value); the Go evaluation triple (value, isNull, error) is modelled by
the structure SqlRes; errors.Trace is the identity on errors; the statement
context warning sink is modelled by returning the list of warnings appended
during the call.  External primitives (zlib deflate/inflate, the crypto
hash functions, AES-ECB, crypto/rand) are parameters of the evaluators, as
the spec treats them as trusted library calls.
-/

namespace BuiltinEncryption

/-- Byte strings: Go string / byte-slice values, one natural per byte. -/
abbrev Bytes := List Nat

/-- Errors and warnings of the evaluators.  In Go both channels carry error
values; errZlibZData and errDeprecatedSyntaxNoReplacement are package-level
error objects defined outside this file (modelled from the spec: the
corrupted-compressed-data warning and the PASSWORD deprecation warning),
errOverflow models types.ErrOverflow.GenByArgs, errNew models errors.New,
and errArg stands for an arbitrary error raised by a child argument
expression. -/
inductive SqlErr where
  | errZlibZData
  | errDeprecatedNoReplacement (funcName : String)
  | errOverflow (valueName funcName : String)
  | errNew (msg : String)
  | errArg (tag : Nat)
  deriving DecidableEq

/-- Result triple of one row evaluation, the Go convention
(value, isNull, error). -/
structure SqlRes (α : Type) where
  val : α
  isNull : Bool
  err : Option SqlErr
  deriving DecidableEq

/-- Go source: const aes128ecbBlobkSize = 16. -/
def aes128ecbBlobkSize : Nat := 16

/-- Modelled from the spec: encrypt.DeriveKeyMySQL is not under src/.  The
spec describes it as the MySQL-compatible key stretching that XOR-folds the
user key into a fixed 16-byte buffer: byte i of the key is XORed into
position i mod size of an initially zero buffer of length size. -/
def DeriveKeyMySQL (key : Bytes) (size : Nat) : Bytes :=
  (key.foldl
    (fun acc k =>
      (acc.1.set (acc.2 % size) (Nat.xor (acc.1.getD (acc.2 % size) 0) k), acc.2 + 1))
    (List.replicate size 0, 0)).1

/-- Go source: binary.LittleEndian.PutUint32 with value uint32(n): the four
bytes of n mod 2^32, least significant first. -/
def le32enc (n : Nat) : Bytes :=
  [n % 4294967296 % 256, n % 4294967296 / 256 % 256,
   n % 4294967296 / 65536 % 256, n % 4294967296 / 16777216 % 256]

/-- Go source: binary.LittleEndian.Uint32 of the first four bytes (bytes of
a Go byte slice are below 256). -/
def le32dec (bs : Bytes) : Nat :=
  bs.getD 0 0 + 256 * bs.getD 1 0 + 65536 * bs.getD 2 0 + 16777216 * bs.getD 3 0

/-- One lowercase hexadecimal digit, as its ASCII byte. -/
def hexDigit (n : Nat) : Nat := if n < 10 then 48 + n else 87 + n

/-- Go fmt.Sprintf with the lowercase hex verb on a byte slice: every byte
becomes two lowercase hexadecimal digits. -/
def hexLower (bs : Bytes) : Bytes :=
  bs.flatMap (fun b => [hexDigit (b / 16), hexDigit (b % 16)])

/-- builtinAesDecryptSig.evalString: NULL or error on either argument short
circuits with a NULL result and the forwarded error; a cipher failure is
swallowed to NULL with no error.  aesDecryptWithECB is the external
encrypt.AESDecryptWithECB primitive. -/
def builtinAesDecryptSig.evalString (aesDecryptWithECB : Bytes → Bytes → Option Bytes)
    (cryptArg keyArg : SqlRes Bytes) : SqlRes Bytes :=
  if cryptArg.isNull || cryptArg.err.isSome then ⟨[], true, cryptArg.err⟩
  else if keyArg.isNull || keyArg.err.isSome then ⟨[], true, keyArg.err⟩
  else
    match aesDecryptWithECB cryptArg.val (DeriveKeyMySQL keyArg.val aes128ecbBlobkSize) with
    | none => ⟨[], true, none⟩
    | some plainText => ⟨plainText, false, none⟩

/-- builtinAesEncryptSig.evalString: same shape as decryption, with the
external encrypt.AESEncryptWithECB primitive. -/
def builtinAesEncryptSig.evalString (aesEncryptWithECB : Bytes → Bytes → Option Bytes)
    (strArg keyArg : SqlRes Bytes) : SqlRes Bytes :=
  if strArg.isNull || strArg.err.isSome then ⟨[], true, strArg.err⟩
  else if keyArg.isNull || keyArg.err.isSome then ⟨[], true, keyArg.err⟩
  else
    match aesEncryptWithECB strArg.val (DeriveKeyMySQL keyArg.val aes128ecbBlobkSize) with
    | none => ⟨[], true, none⟩
    | some cipherText => ⟨cipherText, false, none⟩

/-- builtinPasswordSig.evalString.  Note the Go failure branch returns
isNull = (err != nil), so a NULL argument without error yields a non-NULL
empty string.  EncodePassword is the external auth.EncodePassword (its
definition is not under src/; the spec fixes only that it is the non-empty
fixed-format legacy MySQL hash, so it stays a parameter here).  The second
component is the list of warnings appended to the statement context. -/
def builtinPasswordSig.evalString (EncodePassword : Bytes → Bytes)
    (passArg : SqlRes Bytes) : SqlRes Bytes × List SqlErr :=
  if passArg.isNull || passArg.err.isSome then (⟨[], passArg.err.isSome, passArg.err⟩, [])
  else if passArg.val.length = 0 then (⟨[], false, none⟩, [])
  else (⟨EncodePassword passArg.val, false, none⟩,
        [SqlErr.errDeprecatedNoReplacement "PASSWORD"])

/-- builtinRandomBytesSig.evalString.  randRead models crypto/rand Read on a
buffer of the requested size: it yields the bytes actually produced and an
optional error. -/
def builtinRandomBytesSig.evalString (randRead : Nat → Bytes × Option SqlErr)
    (lenArg : SqlRes Int) : SqlRes Bytes :=
  if lenArg.isNull || lenArg.err.isSome then ⟨[], true, lenArg.err⟩
  else if lenArg.val < 1 ∨ lenArg.val > 1024 then
    ⟨[], false, some (SqlErr.errOverflow "length" "random_bytes")⟩
  else
    match randRead lenArg.val.toNat with
    | (_, some e) => ⟨[], true, some e⟩
    | (buf, none) =>
      if (buf.length : Int) ≠ lenArg.val then
        ⟨[], false, some (SqlErr.errNew "fail to generate random bytes")⟩
      else ⟨buf, false, none⟩

/-- builtinMD5Sig.evalString.  Note the Go failure branch returns the null
flag of the argument itself.  md5Sum is the external crypto/md5 digest. -/
def builtinMD5Sig.evalString (md5Sum : Bytes → Bytes) (arg : SqlRes Bytes) : SqlRes Bytes :=
  if arg.isNull || arg.err.isSome then ⟨[], arg.isNull, arg.err⟩
  else ⟨hexLower (md5Sum arg.val), false, none⟩

/-- builtinSHA1Sig.evalString.  The hasher Write error branch of the Go code
is dead (hash.Hash.Write never returns an error), so the success path is
total.  sha1Sum is the external crypto/sha1 digest. -/
def builtinSHA1Sig.evalString (sha1Sum : Bytes → Bytes) (arg : SqlRes Bytes) : SqlRes Bytes :=
  if arg.isNull || arg.err.isSome then ⟨[], arg.isNull, arg.err⟩
  else ⟨hexLower (sha1Sum arg.val), false, none⟩

/-- Go source: supported hash lengths of the SHA-2 family. -/
def SHA0 : Int := 0

/-- Go source constant SHA224. -/
def SHA224 : Int := 224

/-- Go source constant SHA256. -/
def SHA256 : Int := 256

/-- Go source constant SHA384. -/
def SHA384 : Int := 384

/-- Go source constant SHA512. -/
def SHA512 : Int := 512

/-- builtinSHA2Sig.evalString: the switch on the hash length picks the
digest (0 and 256 share sha256.New); a nil hasher, that is any unlisted
length, yields NULL with no error.  The four digest parameters are the
external crypto/sha256 and crypto/sha512 primitives. -/
def builtinSHA2Sig.evalString (sha256New sha224New sha384New sha512New : Bytes → Bytes)
    (strArg : SqlRes Bytes) (lenArg : SqlRes Int) : SqlRes Bytes :=
  if strArg.isNull || strArg.err.isSome then ⟨[], strArg.isNull, strArg.err⟩
  else if lenArg.isNull || lenArg.err.isSome then ⟨[], lenArg.isNull, lenArg.err⟩
  else if lenArg.val = SHA0 ∨ lenArg.val = SHA256 then
    ⟨hexLower (sha256New strArg.val), false, none⟩
  else if lenArg.val = SHA224 then ⟨hexLower (sha224New strArg.val), false, none⟩
  else if lenArg.val = SHA384 then ⟨hexLower (sha384New strArg.val), false, none⟩
  else if lenArg.val = SHA512 then ⟨hexLower (sha512New strArg.val), false, none⟩
  else ⟨[], true, none⟩

/-- builtinCompressSig.evalString.  deflate is the zlib-backed deflate
helper of the Go file (its body is a trusted library call, so it stays a
parameter).  Empty input is returned as is; on success the result is the
4-byte little-endian length of the input, the deflate stream, and one dot
byte exactly when the last byte of the deflate stream is the space byte 32
(the Go code reserves one extra slot and overwrites the final byte, which
amounts to appending the dot).  The Go code indexes the last byte of the
stream directly, which presumes the stream is non-empty, as every zlib
stream is. -/
def builtinCompressSig.evalString (deflate : Bytes → Option Bytes)
    (arg : SqlRes Bytes) : SqlRes Bytes :=
  if arg.isNull || arg.err.isSome then ⟨[], true, arg.err⟩
  else if arg.val.length = 0 then ⟨[], false, none⟩
  else
    match deflate arg.val with
    | none => ⟨[], true, none⟩
    | some compressed =>
      ⟨le32enc arg.val.length ++ compressed ++
        (if compressed.getLastD 0 = 32 then [46] else []), false, none⟩

/-- builtinUncompressSig.evalString.  inflate is the zlib-backed inflate
helper of the Go file (a trusted library call, kept as a parameter).  Empty
input maps to empty output; input of length at most 4 is corrupted: the
errZlibZData warning is appended and the result is NULL with no error; on
longer input the length prefix is skipped and the remainder inflated, an
inflate failure giving the same warning and NULL.  The second component is
the list of warnings appended to the statement context. -/
def builtinUncompressSig.evalString (inflate : Bytes → Option Bytes)
    (arg : SqlRes Bytes) : SqlRes Bytes × List SqlErr :=
  if arg.isNull || arg.err.isSome then (⟨[], true, arg.err⟩, [])
  else if arg.val.length = 0 then (⟨[], false, none⟩, [])
  else if arg.val.length ≤ 4 then (⟨[], true, none⟩, [SqlErr.errZlibZData])
  else
    match inflate (arg.val.drop 4) with
    | none => (⟨[], true, none⟩, [SqlErr.errZlibZData])
    | some bs => (⟨bs, false, none⟩, [])

/-- builtinUncompressedLengthSig.evalInt.  Empty input yields 0 non-NULL;
input of length at most 4 is corrupted: the errZlibZData warning is
appended and the result is 0 non-NULL; otherwise the little-endian uint32
of the first four bytes, with no decompression attempted.  The second
component is the list of warnings appended to the statement context. -/
def builtinUncompressedLengthSig.evalInt (arg : SqlRes Bytes) : SqlRes Int × List SqlErr :=
  if arg.isNull || arg.err.isSome then (⟨0, true, arg.err⟩, [])
  else if arg.val.length = 0 then (⟨0, false, none⟩, [])
  else if arg.val.length ≤ 4 then (⟨0, false, none⟩, [SqlErr.errZlibZData])
  else (⟨((le32dec (arg.val.take 4) : Nat) : Int), false, none⟩, [])

/-- Claim C1, counterexample: the claimed uniform rule says any NULL
argument makes the result NULL (second return value true), but the PASSWORD
evaluator applied to an argument that evaluated to NULL without error
returns a result whose null flag is false (the Go code returns
isNull = (err != nil) on the failure path). -/
theorem c1_counterexample :
    (builtinPasswordSig.evalString (fun p => 42 :: p)
      ⟨[], true, none⟩).1.isNull = false := by
  decide

/-- Claim C1, amended: every evaluator short circuits when an argument is
NULL or errored and forwards the argument error unchanged; the null flag of
the result is true for AES_DECRYPT, AES_ENCRYPT, COMPRESS, UNCOMPRESS,
UNCOMPRESSED_LENGTH and RANDOM_BYTES, but PASSWORD sets it to whether an
error was raised, and MD5, SHA1 and SHA2 copy the null flag of the
offending argument. -/
theorem c1_null_error_propagation_amended
    (aesDec aesEnc : Bytes → Bytes → Option Bytes) (EncodePassword : Bytes → Bytes)
    (randRead : Nat → Bytes × Option SqlErr)
    (md5Sum sha1Sum sha256New sha224New sha384New sha512New : Bytes → Bytes)
    (deflate inflate : Bytes → Option Bytes)
    (a b : SqlRes Bytes) (n : SqlRes Int) :
    (a.isNull = true ∨ a.err.isSome = true →
      builtinAesDecryptSig.evalString aesDec a b = ⟨[], true, a.err⟩ ∧
      builtinAesEncryptSig.evalString aesEnc a b = ⟨[], true, a.err⟩ ∧
      builtinCompressSig.evalString deflate a = ⟨[], true, a.err⟩ ∧
      builtinUncompressSig.evalString inflate a = (⟨[], true, a.err⟩, []) ∧
      builtinUncompressedLengthSig.evalInt a = (⟨0, true, a.err⟩, []) ∧
      builtinPasswordSig.evalString EncodePassword a = (⟨[], a.err.isSome, a.err⟩, []) ∧
      builtinMD5Sig.evalString md5Sum a = ⟨[], a.isNull, a.err⟩ ∧
      builtinSHA1Sig.evalString sha1Sum a = ⟨[], a.isNull, a.err⟩ ∧
      builtinSHA2Sig.evalString sha256New sha224New sha384New sha512New a n =
        ⟨[], a.isNull, a.err⟩) ∧
    (a.isNull = false → a.err = none → b.isNull = true ∨ b.err.isSome = true →
      builtinAesDecryptSig.evalString aesDec a b = ⟨[], true, b.err⟩ ∧
      builtinAesEncryptSig.evalString aesEnc a b = ⟨[], true, b.err⟩) ∧
    (a.isNull = false → a.err = none → n.isNull = true ∨ n.err.isSome = true →
      builtinSHA2Sig.evalString sha256New sha224New sha384New sha512New a n =
        ⟨[], n.isNull, n.err⟩) ∧
    (n.isNull = true ∨ n.err.isSome = true →
      builtinRandomBytesSig.evalString randRead n = ⟨[], true, n.err⟩) := by
  refine ⟨?_, ?_, ?_, ?_⟩
  · intro h
    rcases h with h | h <;>
      exact ⟨by simp [builtinAesDecryptSig.evalString, h],
        by simp [builtinAesEncryptSig.evalString, h],
        by simp [builtinCompressSig.evalString, h],
        by simp [builtinUncompressSig.evalString, h],
        by simp [builtinUncompressedLengthSig.evalInt, h],
        by simp [builtinPasswordSig.evalString, h],
        by simp [builtinMD5Sig.evalString, h],
        by simp [builtinSHA1Sig.evalString, h],
        by simp [builtinSHA2Sig.evalString, h]⟩
  · intro h1 h2 hb
    rcases hb with hb | hb <;>
      exact ⟨by simp [builtinAesDecryptSig.evalString, h1, h2, hb],
        by simp [builtinAesEncryptSig.evalString, h1, h2, hb]⟩
  · intro h1 h2 hn
    rcases hn with hn | hn <;>
      simp [builtinSHA2Sig.evalString, h1, h2, hn]
  · intro hn
    rcases hn with hn | hn <;>
      simp [builtinRandomBytesSig.evalString, hn]

/-- Witness for the amended claim C1, at a NULL first argument. -/
theorem c1_amended_witness :
    builtinMD5Sig.evalString (fun _ => []) ⟨[], true, none⟩ = ⟨[], true, none⟩ ∧
    builtinPasswordSig.evalString (fun p => 42 :: p) ⟨[], true, none⟩ =
      (⟨[], false, none⟩, []) := by
  have h := (c1_null_error_propagation_amended (fun _ _ => none) (fun _ _ => none)
    (fun p => 42 :: p) (fun _ => ([], none)) (fun _ => []) (fun _ => []) (fun _ => [])
    (fun _ => []) (fun _ => []) (fun _ => []) (fun _ => none) (fun _ => none)
    ⟨[], true, none⟩ ⟨[], false, none⟩ ⟨0, false, none⟩).1 (Or.inl rfl)
  exact ⟨h.2.2.2.2.2.2.1, h.2.2.2.2.2.1⟩

/-- Claim C2: UNCOMPRESS of COMPRESS of s is s, non-NULL with no error, for
every s including the empty string.  The hypotheses are the trusted zlib
facts the spec grants: the deflate helper succeeds, its stream is non-empty
(every zlib stream has a header and a checksum), and the inflate helper
recovers s from the stream while ignoring trailing bytes (the reader stops
at the end of the stream, so the optional dot byte is ignored). -/
theorem c2_compress_uncompress_roundtrip (deflate inflate : Bytes → Option Bytes)
    (s ds : Bytes) (hds : deflate s = some ds) (hne : ds ≠ [])
    (hinf : ∀ t : Bytes, inflate (ds ++ t) = some s) :
    (builtinCompressSig.evalString deflate ⟨s, false, none⟩).isNull = false ∧
    (builtinCompressSig.evalString deflate ⟨s, false, none⟩).err = none ∧
    builtinUncompressSig.evalString inflate
      ⟨(builtinCompressSig.evalString deflate ⟨s, false, none⟩).val, false, none⟩ =
      (⟨s, false, none⟩, []) := by
  by_cases hs : s = []
  · subst hs
    refine ⟨rfl, rfl, ?_⟩
    simp [builtinCompressSig.evalString, builtinUncompressSig.evalString]
  · have h1 : builtinCompressSig.evalString deflate ⟨s, false, none⟩ =
        ⟨le32enc s.length ++ (ds ++ (if ds.getLastD 0 = 32 then [46] else [])),
          false, none⟩ := by
      simp [builtinCompressSig.evalString, List.length_eq_zero, hs, hds,
        List.append_assoc]
    set sfx := (if ds.getLastD 0 = 32 then ([46] : Bytes) else []) with hsfx
    have hd : 0 < ds.length := List.length_pos.mpr hne
    have hA : ¬ (le32enc s.length = []) := by simp [le32enc]
    have hlen4 : (le32enc s.length).length = 4 := rfl
    have hB : ¬ (List.length (le32enc s.length) + (List.length ds + List.length sfx) ≤ 4) := by
      rw [hlen4]
      omega
    have hdrop : (le32enc s.length ++ (ds ++ sfx)).drop 4 = ds ++ sfx := rfl
    refine ⟨by rw [h1], by rw [h1], ?_⟩
    rw [h1]
    simp [builtinUncompressSig.evalString, hA, hB, hdrop, hinf sfx]

/-- Witness for claim C2 with a concrete prefix codec standing in for
zlib. -/
theorem c2_roundtrip_witness :
    builtinUncompressSig.evalString (fun l => some ((l.drop 1).take 1))
      ⟨(builtinCompressSig.evalString (fun s => some (7 :: s))
          ⟨[97], false, none⟩).val, false, none⟩ =
      (⟨[97], false, none⟩, []) := by
  have h := c2_compress_uncompress_roundtrip (fun s => some (7 :: s))
    (fun l => some ((l.drop 1).take 1)) [97] [7, 97] rfl (by decide)
    (fun t => by simp)
  exact h.2.2

/-- Claim C3: for non-empty s, COMPRESS(s) is the 4-byte little-endian
uint32 of the length of s, then the deflate stream, then one dot byte
exactly when the last byte of the stream is the space byte 32; its length
is 4 + the stream length, plus 1 in the dot case; the empty string maps to
the empty string with no framing. -/
theorem c3_compress_wire_format (deflate : Bytes → Option Bytes) (s ds : Bytes)
    (hs : s ≠ []) (hds : deflate s = some ds) :
    builtinCompressSig.evalString deflate ⟨s, false, none⟩ =
      ⟨le32enc s.length ++ ds ++ (if ds.getLastD 0 = 32 then [46] else []),
        false, none⟩ ∧
    (builtinCompressSig.evalString deflate ⟨s, false, none⟩).val.length =
      (if ds.getLastD 0 = 32 then 4 + ds.length + 1 else 4 + ds.length) ∧
    builtinCompressSig.evalString deflate ⟨[], false, none⟩ = ⟨[], false, none⟩ := by
  have h1 : builtinCompressSig.evalString deflate ⟨s, false, none⟩ =
      ⟨le32enc s.length ++ ds ++ (if ds.getLastD 0 = 32 then [46] else []),
        false, none⟩ := by
    simp [builtinCompressSig.evalString, List.length_eq_zero, hs, hds]
  refine ⟨h1, ?_, by simp [builtinCompressSig.evalString]⟩
  rw [h1]
  dsimp only
  by_cases hsp : ds.getLastD 0 = 32
  · rw [if_pos hsp, if_pos hsp]
    simp only [List.length_append, le32enc, List.length_cons, List.length_nil]
    try omega
  · rw [if_neg hsp, if_neg hsp]
    simp only [List.length_append, le32enc, List.length_cons, List.length_nil]
    try omega

/-- Witness for claim C3 at a one-byte input and a concrete deflate
stand-in. -/
theorem c3_wire_format_witness :
    (builtinCompressSig.evalString (fun _ => some [1, 2, 3])
      ⟨[97], false, none⟩).val = [1, 0, 0, 0, 1, 2, 3] := by
  have h := c3_compress_wire_format (fun _ => some [1, 2, 3]) [97] [1, 2, 3]
    (by decide) rfl
  rw [h.1]
  decide

/-- Claim C4: UNCOMPRESS of any input of length 1 to 4 is NULL with exactly
one corrupted-data warning and no propagated error; UNCOMPRESS of the empty
string is the empty string, non-NULL, with no warning. -/
theorem c4_uncompress_corrupted (inflate : Bytes → Option Bytes) (x : Bytes)
    (h1 : 1 ≤ x.length) (h4 : x.length ≤ 4) :
    builtinUncompressSig.evalString inflate ⟨x, false, none⟩ =
      (⟨[], true, none⟩, [SqlErr.errZlibZData]) ∧
    builtinUncompressSig.evalString inflate ⟨[], false, none⟩ =
      (⟨[], false, none⟩, []) := by
  have hx : x.length ≠ 0 := by omega
  exact ⟨by simp [builtinUncompressSig.evalString, hx, h4],
    by simp [builtinUncompressSig.evalString]⟩

/-- Witness for claim C4 at a one-byte input. -/
theorem c4_uncompress_corrupted_witness :
    builtinUncompressSig.evalString (fun _ => none) ⟨[0], false, none⟩ =
      (⟨[], true, none⟩, [SqlErr.errZlibZData]) ∧
    builtinUncompressSig.evalString (fun _ => none) ⟨[], false, none⟩ =
      (⟨[], false, none⟩, []) :=
  c4_uncompress_corrupted (fun _ => none) [0] (by decide) (by decide)

/-- Claim C5: UNCOMPRESSED_LENGTH of any input of length 1 to 4 is the
integer 0, non-NULL, with exactly one corrupted-data warning, where
UNCOMPRESS on the same range is NULL. -/
theorem c5_uncompressed_length_corrupted (x : Bytes)
    (h1 : 1 ≤ x.length) (h4 : x.length ≤ 4) :
    builtinUncompressedLengthSig.evalInt ⟨x, false, none⟩ =
      (⟨0, false, none⟩, [SqlErr.errZlibZData]) ∧
    (builtinUncompressSig.evalString (fun _ => none) ⟨x, false, none⟩).1.isNull = true := by
  have hx : x.length ≠ 0 := by omega
  exact ⟨by simp [builtinUncompressedLengthSig.evalInt, hx, h4],
    by simp [builtinUncompressSig.evalString, hx, h4]⟩

/-- Witness for claim C5 at a two-byte input. -/
theorem c5_uncompressed_length_corrupted_witness :
    builtinUncompressedLengthSig.evalInt ⟨[1, 2], false, none⟩ =
      (⟨0, false, none⟩, [SqlErr.errZlibZData]) ∧
    (builtinUncompressSig.evalString (fun _ => none)
      ⟨[1, 2], false, none⟩).1.isNull = true :=
  c5_uncompressed_length_corrupted [1, 2] (by decide) (by decide)

/-- Claim C6: SHA2 with hash length 0 equals SHA2 with hash length 256, and
any hash length outside the supported set yields NULL with no error (the
evaluator has no warning channel at all). -/
theorem c6_sha2_alias_and_unsupported
    (sha256New sha224New sha384New sha512New : Bytes → Bytes) (s : Bytes) (hl : Int)
    (hunsup : hl ≠ 0 ∧ hl ≠ 224 ∧ hl ≠ 256 ∧ hl ≠ 384 ∧ hl ≠ 512) :
    builtinSHA2Sig.evalString sha256New sha224New sha384New sha512New
        ⟨s, false, none⟩ ⟨0, false, none⟩ =
      builtinSHA2Sig.evalString sha256New sha224New sha384New sha512New
        ⟨s, false, none⟩ ⟨256, false, none⟩ ∧
    builtinSHA2Sig.evalString sha256New sha224New sha384New sha512New
        ⟨s, false, none⟩ ⟨hl, false, none⟩ = ⟨[], true, none⟩ := by
  obtain ⟨h0, h224, h256, h384, h512⟩ := hunsup
  constructor
  · simp [builtinSHA2Sig.evalString, SHA0, SHA224, SHA256, SHA384, SHA512]
  · simp [builtinSHA2Sig.evalString, SHA0, SHA224, SHA256, SHA384, SHA512,
      h0, h224, h256, h384, h512]

/-- Witness for claim C6 at the unsupported hash length 1. -/
theorem c6_sha2_witness :
    builtinSHA2Sig.evalString (fun _ => [1]) (fun _ => [2]) (fun _ => [3]) (fun _ => [4])
        ⟨[97], false, none⟩ ⟨0, false, none⟩ =
      builtinSHA2Sig.evalString (fun _ => [1]) (fun _ => [2]) (fun _ => [3]) (fun _ => [4])
        ⟨[97], false, none⟩ ⟨256, false, none⟩ ∧
    builtinSHA2Sig.evalString (fun _ => [1]) (fun _ => [2]) (fun _ => [3]) (fun _ => [4])
        ⟨[97], false, none⟩ ⟨1, false, none⟩ = ⟨[], true, none⟩ :=
  c6_sha2_alias_and_unsupported (fun _ => [1]) (fun _ => [2]) (fun _ => [3]) (fun _ => [4])
    [97] 1 (by decide)

/-- Claim C7: RANDOM_BYTES with a non-NULL length outside 1..1024 is the
fatal overflow error, non-NULL, with no warning channel; inside the range,
when the random source produces exactly the requested bytes without error,
the result is that byte string of length exactly n; a short or long read is
the fatal internal error. -/
theorem c7_random_bytes (randRead : Nat → Bytes × Option SqlErr) (n : Int) (bs : Bytes) :
    (n < 1 ∨ n > 1024 →
      builtinRandomBytesSig.evalString randRead ⟨n, false, none⟩ =
        ⟨[], false, some (SqlErr.errOverflow "length" "random_bytes")⟩) ∧
    (1 ≤ n → n ≤ 1024 → randRead n.toNat = (bs, none) → (bs.length : Int) = n →
      builtinRandomBytesSig.evalString randRead ⟨n, false, none⟩ = ⟨bs, false, none⟩ ∧
      ((builtinRandomBytesSig.evalString randRead ⟨n, false, none⟩).val.length : Int) = n) ∧
    (1 ≤ n → n ≤ 1024 → randRead n.toNat = (bs, none) → (bs.length : Int) ≠ n →
      builtinRandomBytesSig.evalString randRead ⟨n, false, none⟩ =
        ⟨[], false, some (SqlErr.errNew "fail to generate random bytes")⟩) := by
  refine ⟨?_, ?_, ?_⟩
  · intro h
    simp [builtinRandomBytesSig.evalString, h]
  · intro h1 h2 hr heq
    have hov : ¬ (n < 1 ∨ n > 1024) := by omega
    have hres : builtinRandomBytesSig.evalString randRead ⟨n, false, none⟩ =
        ⟨bs, false, none⟩ := by
      simp [builtinRandomBytesSig.evalString, hov, hr, heq]
    exact ⟨hres, by rw [hres]; exact heq⟩
  · intro h1 h2 hr hne
    have hov : ¬ (n < 1 ∨ n > 1024) := by omega
    simp [builtinRandomBytesSig.evalString, hov, hr, hne]

/-- Witness for claim C7 at lengths 0 and 16 and an all-zero random
source. -/
theorem c7_random_bytes_witness :
    builtinRandomBytesSig.evalString (fun m => (List.replicate m 0, none))
        ⟨0, false, none⟩ =
      ⟨[], false, some (SqlErr.errOverflow "length" "random_bytes")⟩ ∧
    builtinRandomBytesSig.evalString (fun m => (List.replicate m 0, none))
        ⟨16, false, none⟩ = ⟨List.replicate 16 0, false, none⟩ := by
  have ha := c7_random_bytes (fun m => (List.replicate m 0, none)) 0 []
  have hb := c7_random_bytes (fun m => (List.replicate m 0, none)) 16 (List.replicate 16 0)
  exact ⟨ha.1 (Or.inl (by decide)), (hb.2.1 (by decide) (by decide) rfl (by decide)).1⟩

/-- Claim C8: PASSWORD of the empty string is the empty string, non-NULL,
with no warning; PASSWORD of a non-empty string appends exactly one
deprecation warning and returns the non-empty legacy hash; for any
non-NULL errorless argument the result is never NULL.  The non-emptiness
of the external auth.EncodePassword is the spec-granted hypothesis. -/
theorem c8_password (EncodePassword : Bytes → Bytes) (pass : Bytes) (arg : SqlRes Bytes)
    (hpass : pass ≠ []) (hhash : EncodePassword pass ≠ []) :
    builtinPasswordSig.evalString EncodePassword ⟨[], false, none⟩ =
      (⟨[], false, none⟩, []) ∧
    (builtinPasswordSig.evalString EncodePassword ⟨pass, false, none⟩ =
        (⟨EncodePassword pass, false, none⟩,
          [SqlErr.errDeprecatedNoReplacement "PASSWORD"]) ∧
      (builtinPasswordSig.evalString EncodePassword ⟨pass, false, none⟩).1.val ≠ []) ∧
    (arg.isNull = false → arg.err = none →
      (builtinPasswordSig.evalString EncodePassword arg).1.isNull = false) := by
  have hlen : pass.length ≠ 0 := fun h => hpass (List.length_eq_zero.mp h)
  refine ⟨by simp [builtinPasswordSig.evalString], ⟨?_, ?_⟩, ?_⟩
  · simp [builtinPasswordSig.evalString, hlen]
  · simp [builtinPasswordSig.evalString, hlen, hhash]
  · intro h1 h2
    by_cases h : arg.val.length = 0 <;>
      simp [builtinPasswordSig.evalString, h1, h2, h]

/-- Witness for claim C8 at the password of one byte 120 and a concrete
star-prefixing hash stand-in. -/
theorem c8_password_witness :
    builtinPasswordSig.evalString (fun p => 42 :: p) ⟨[], false, none⟩ =
      (⟨[], false, none⟩, []) ∧
    builtinPasswordSig.evalString (fun p => 42 :: p) ⟨[120], false, none⟩ =
      (⟨[42, 120], false, none⟩, [SqlErr.errDeprecatedNoReplacement "PASSWORD"]) := by
  have h := c8_password (fun p => 42 :: p) [120] ⟨[120], false, none⟩
    (by decide) (by decide)
  exact ⟨h.1, h.2.1.1⟩

/-- Claim C9: AES_DECRYPT of AES_ENCRYPT of s under the same key string k
returns s, non-NULL with no error; both sides stretch k with the same
MySQL XOR-folded 16-byte derived key, and the hypotheses are the trusted
AES-ECB round-trip facts at that derived key. -/
theorem c9_aes_roundtrip (aesEncryptWithECB aesDecryptWithECB : Bytes → Bytes → Option Bytes)
    (s k c : Bytes)
    (henc : aesEncryptWithECB s (DeriveKeyMySQL k aes128ecbBlobkSize) = some c)
    (hdec : aesDecryptWithECB c (DeriveKeyMySQL k aes128ecbBlobkSize) = some s) :
    builtinAesEncryptSig.evalString aesEncryptWithECB ⟨s, false, none⟩ ⟨k, false, none⟩ =
      ⟨c, false, none⟩ ∧
    builtinAesDecryptSig.evalString aesDecryptWithECB
      ⟨(builtinAesEncryptSig.evalString aesEncryptWithECB ⟨s, false, none⟩
          ⟨k, false, none⟩).val, false, none⟩
      ⟨k, false, none⟩ = ⟨s, false, none⟩ := by
  have h1 : builtinAesEncryptSig.evalString aesEncryptWithECB ⟨s, false, none⟩
      ⟨k, false, none⟩ = ⟨c, false, none⟩ := by
    simp [builtinAesEncryptSig.evalString, henc]
  refine ⟨h1, ?_⟩
  rw [h1]
  simp [builtinAesDecryptSig.evalString, hdec]

/-- Witness for claim C9 with the identity cipher standing in for
AES-ECB. -/
theorem c9_aes_roundtrip_witness :
    builtinAesDecryptSig.evalString (fun d _ => some d)
      ⟨(builtinAesEncryptSig.evalString (fun d _ => some d) ⟨[5], false, none⟩
          ⟨[1], false, none⟩).val, false, none⟩
      ⟨[1], false, none⟩ = ⟨[5], false, none⟩ :=
  (c9_aes_roundtrip (fun d _ => some d) (fun d _ => some d) [5] [1] [5] rfl rfl).2

/-- Claim C10: UNCOMPRESSED_LENGTH of any payload longer than 4 bytes is
the little-endian uint32 of its first four bytes, non-NULL, with no
warning and no decompression attempted (the evaluator takes no inflate
primitive at all). -/
theorem c10_uncompressed_length_decode (payload : Bytes) (h : 4 < payload.length) :
    builtinUncompressedLengthSig.evalInt ⟨payload, false, none⟩ =
      (⟨((le32dec (payload.take 4) : Nat) : Int), false, none⟩, []) := by
  have h0 : payload.length ≠ 0 := by omega
  have h4 : ¬ payload.length ≤ 4 := by omega
  simp [builtinUncompressedLengthSig.evalInt, h0, h4]

/-- Witness for claim C10 at a five-byte payload with length prefix 1. -/
theorem c10_uncompressed_length_decode_witness :
    builtinUncompressedLengthSig.evalInt ⟨[1, 0, 0, 0, 9], false, none⟩ =
      (⟨1, false, none⟩, []) := by
  have h := c10_uncompressed_length_decode [1, 0, 0, 0, 9] (by decide)
  rw [h]
  decide

end BuiltinEncryption
